import Mathlib

/-!
Verification development for the `csv2vviz` converter.

The source program (`src/main.rs`) reads a zip archive of per-drone CSV
motion logs, optionally applies a rigid transform (an Euler-angle
quaternion rotation followed by a translation, both from the `euclid`
crate) to every position, converts each entry's rows into a home position
plus inter-frame deltas, and serializes one `Show` document.

Numeric model: the program computes with `f32`.  Here every numeric value
is an exact rational, represented by the kernel-computable type `Q` below
(normalized numerator/denominator pairs with a fuel-driven gcd so that
`decide` can evaluate the whole pipeline).  Claims about exact floating
point rounding are therefore outside this embedding; the concrete inputs
used below involve only small integers, on which `f32` arithmetic is
exact, so the rational results coincide with the program's.

Panics (`unwrap`/`expect`) are modelled as `Except.error`; a run that
panics writes no output, a run that returns `Except.ok` writes exactly
one output document.
-/

deriving instance DecidableEq for Except

/-- Fuel-driven Euclid step so that gcd computations reduce in the kernel. -/
def gcdStep : Nat → Nat → Nat → Nat
  | 0, _, n => n
  | _ + 1, 0, n => n
  | fuel + 1, m + 1, n => gcdStep fuel (n % (m + 1)) (m + 1)

/-- Kernel-computable gcd; agrees with `Nat.gcd` (see `natGcd_eq`). -/
def natGcd (m n : Nat) : Nat := gcdStep (m + 1) m n

theorem gcdStep_eq : ∀ fuel m n, m < fuel → gcdStep fuel m n = Nat.gcd m n := by
  intro fuel
  induction fuel with
  | zero => intro m n h; omega
  | succ f ih =>
    intro m n h
    match m with
    | 0 => simp [gcdStep]
    | mm + 1 =>
      have hml : n % (mm + 1) < mm + 1 := Nat.mod_lt _ (by omega)
      have h2 : n % (mm + 1) < f := by omega
      rw [gcdStep, ih _ _ h2]
      exact (Nat.gcd_rec _ _).symm

theorem natGcd_eq (m n : Nat) : natGcd m n = Nat.gcd m n :=
  gcdStep_eq _ _ _ (Nat.lt_succ_self m)

/-- Exact rational numbers with a kernel-computable normal form: positive
denominator, numerator and denominator coprime.  These model the values
the program holds in `f32` variables (exactly, with no rounding). -/
structure Q where
  num : Int
  den : Nat
  den_pos : 0 < den
  reduced : num.natAbs.gcd den = 1

theorem Q.eq_of (a b : Q) (h1 : a.num = b.num) (h2 : a.den = b.den) : a = b := by
  cases a; cases b; cases h1; cases h2; rfl

def Q.decEq (a b : Q) : Decidable (a = b) :=
  if h : a.num = b.num ∧ a.den = b.den then
    isTrue (Q.eq_of a b h.1 h.2)
  else
    isFalse (fun e => h (by cases e; exact ⟨rfl, rfl⟩))

instance : DecidableEq Q := Q.decEq

/-- Normalization of a raw numerator/denominator pair (the `d = 0` branch
is junk that none of the program's operations reach). -/
def Q.normalize (n : Int) (d : Nat) : Q :=
  if hd : d = 0 then ⟨0, 1, Nat.one_pos, by simp⟩
  else
    ⟨if n < 0 then -((n.natAbs / natGcd n.natAbs d : Nat) : Int)
      else ((n.natAbs / natGcd n.natAbs d : Nat) : Int),
     d / natGcd n.natAbs d,
     by
       have hg : natGcd n.natAbs d = Nat.gcd n.natAbs d := natGcd_eq _ _
       have hd0 : 0 < d := Nat.pos_of_ne_zero hd
       have hgpos : 0 < Nat.gcd n.natAbs d := Nat.gcd_pos_of_pos_right _ hd0
       have hdvd : Nat.gcd n.natAbs d ∣ d := Nat.gcd_dvd_right _ _
       rw [hg]
       exact Nat.div_pos (Nat.le_of_dvd hd0 hdvd) hgpos,
     by
       have hg : natGcd n.natAbs d = Nat.gcd n.natAbs d := natGcd_eq _ _
       have hd0 : 0 < d := Nat.pos_of_ne_zero hd
       have hgpos : 0 < Nat.gcd n.natAbs d := Nat.gcd_pos_of_pos_right _ hd0
       have habs : (if n < 0 then -((n.natAbs / natGcd n.natAbs d : Nat) : Int)
           else ((n.natAbs / natGcd n.natAbs d : Nat) : Int)).natAbs
           = n.natAbs / natGcd n.natAbs d := by
         split <;> simp only [Int.natAbs_neg, Int.natAbs_ofNat]
       rw [habs, hg]
       exact Nat.coprime_div_gcd_div_gcd hgpos⟩

def Q.ofInt (n : Int) : Q := ⟨n, 1, Nat.one_pos, Nat.gcd_one_right _⟩

instance (n : Nat) : OfNat Q n := ⟨Q.ofInt n⟩

instance : NatCast Q := ⟨fun n => Q.ofInt n⟩

def Q.add (a b : Q) : Q :=
  Q.normalize (a.num * b.den + b.num * a.den) (a.den * b.den)

def Q.sub (a b : Q) : Q :=
  Q.normalize (a.num * b.den - b.num * a.den) (a.den * b.den)

def Q.mul (a b : Q) : Q :=
  Q.normalize (a.num * b.num) (a.den * b.den)

def Q.neg (a : Q) : Q := ⟨-a.num, a.den, a.den_pos, by rw [Int.natAbs_neg]; exact a.reduced⟩

/-- Exact division (the divisor-zero branch is junk; the program only ever
divides by the nonzero literals `1000.0` and powers of ten). -/
def Q.div (a b : Q) : Q :=
  if b.num < 0 then Q.normalize (-(a.num * b.den)) (a.den * b.num.natAbs)
  else Q.normalize (a.num * b.den) (a.den * b.num.natAbs)

instance : Add Q := ⟨Q.add⟩
instance : Sub Q := ⟨Q.sub⟩
instance : Mul Q := ⟨Q.mul⟩
instance : Neg Q := ⟨Q.neg⟩
instance : Div Q := ⟨Q.div⟩

theorem Q.normalize_self (q : Q) : Q.normalize q.num q.den = q := by
  obtain ⟨n, d, hd, hc⟩ := q
  have hd' : d ≠ 0 := Nat.pos_iff_ne_zero.mp hd
  unfold Q.normalize
  rw [dif_neg hd']
  have hg : natGcd n.natAbs d = 1 := by rw [natGcd_eq]; exact hc
  apply Q.eq_of
  · simp only [hg, Nat.div_one]
    split <;> omega
  · simp only [hg, Nat.div_one]

theorem Q.add_zero (a : Q) : a + 0 = a := by
  show Q.add a (Q.ofInt 0) = a
  unfold Q.add Q.ofInt
  simp only [Nat.cast_one, Int.mul_one, Int.zero_mul, Int.add_zero, Nat.mul_one]
  exact Q.normalize_self a

theorem Q.sub_zero (a : Q) : a - 0 = a := by
  show Q.sub a (Q.ofInt 0) = a
  unfold Q.sub Q.ofInt
  simp only [Nat.cast_one, Int.mul_one, Int.zero_mul, Int.sub_zero, Nat.mul_one]
  exact Q.normalize_self a

theorem Q.normalize_zero_num (d : Nat) (hd : d ≠ 0) : Q.normalize 0 d = Q.ofInt 0 := by
  unfold Q.normalize
  rw [dif_neg hd]
  apply Q.eq_of
  · simp [Q.ofInt]
  · simp [Q.ofInt, natGcd_eq, Nat.div_self (Nat.pos_of_ne_zero hd)]

theorem Q.zero_mul (a : Q) : 0 * a = 0 := by
  show Q.mul (Q.ofInt 0) a = Q.ofInt 0
  unfold Q.mul Q.ofInt
  simp only [Int.zero_mul, Nat.one_mul]
  exact Q.normalize_zero_num a.den (Nat.pos_iff_ne_zero.mp a.den_pos)

example : ((1000 : Q) - 0) / 1000 = 1 := by decide
example : (6 : Q) - 2 = 4 := by decide
example : ((5 : Q) - 3 = 2) := by decide

/-! ## Geometry: the euclid crate's quaternion rotation and translation -/

/-- 3D vector with exact components (euclid's `Vector3D<f32>`). -/
structure Vector3D where
  x : Q
  y : Q
  z : Q
deriving DecidableEq

/-- 3D point with exact components (euclid's `Point3D<f32>`). -/
structure Point3D where
  x : Q
  y : Q
  z : Q
deriving DecidableEq

def Vector3D.cross (a b : Vector3D) : Vector3D :=
  ⟨a.y * b.z - a.z * b.y, a.z * b.x - a.x * b.z, a.x * b.y - a.y * b.x⟩

def Vector3D.add (a b : Vector3D) : Vector3D := ⟨a.x + b.x, a.y + b.y, a.z + b.z⟩

def Vector3D.smul (a : Vector3D) (s : Q) : Vector3D := ⟨a.x * s, a.y * s, a.z * s⟩

/-- euclid's `Rotation3D` quaternion (fields `i`, `j`, `k`, `r`). -/
structure Rotation3D where
  i : Q
  j : Q
  k : Q
  r : Q
deriving DecidableEq

def Rotation3D.vectorPart (q : Rotation3D) : Vector3D := ⟨q.i, q.j, q.k⟩

/-- Models euclid's `Rotation3D::transform_vector3d`:
`let t = self.vector_part().cross(v) * two; v + t * self.r + self.vector_part().cross(t)`. -/
def Rotation3D.transformVector3d (q : Rotation3D) (v : Vector3D) : Vector3D :=
  let r := q.vectorPart
  let t := (r.cross v).smul 2
  (v.add (t.smul q.r)).add (r.cross t)

/-- Models euclid's `Rotation3D::transform_point3d` (rotate the point as a vector). -/
def Rotation3D.transformPoint3d (q : Rotation3D) (p : Point3D) : Point3D :=
  let v := q.transformVector3d ⟨p.x, p.y, p.z⟩
  ⟨v.x, v.y, v.z⟩

/-- euclid's `Translation3D<f32>`. -/
structure Translation3D where
  x : Q
  y : Q
  z : Q
deriving DecidableEq

/-- Models euclid's `Translation3D::transform_point3d`: componentwise addition. -/
def Translation3D.transformPoint3d (t : Translation3D) (p : Point3D) : Point3D :=
  ⟨p.x + t.x, p.y + t.y, p.z + t.z⟩

/-- Models euclid's `Rotation3D::euler(roll, pitch, yaw)` quaternion formula,
given the `(sin, cos)` pairs of the three half angles as `f32::sin_cos`
returns them. -/
def Rotation3D.eulerFromSinCos (sr cr sp cp sy cy : Q) : Rotation3D :=
  ⟨cy * sr * cp - sy * cr * sp,
   cy * cr * sp + sy * sr * cp,
   sy * cr * cp - cy * sr * sp,
   cy * cr * cp + sy * sr * sp⟩

/-- Models `Rotation3D::normalize`, which multiplies every component by the
computed reciprocal norm `1 / self.norm()`, given that reciprocal. -/
def Rotation3D.mulScalar (q : Rotation3D) (s : Q) : Rotation3D :=
  ⟨q.i * s, q.j * s, q.k * s, q.r * s⟩

/-- The rotation `main` builds for the argument "0 0 0":
`Rotation3D::euler(deg(0), deg(0), deg(0)).normalize()`.  All the `f32`
steps are exact here: `0 * PI / 180 = 0`, `sin_cos(0.0) = (0.0, 1.0)`,
the norm of the resulting unit quaternion is exactly `1.0`, and
`1.0 / 1.0 = 1.0`. -/
def zeroRotationNormalized : Rotation3D :=
  (Rotation3D.eulerFromSinCos 0 1 0 1 0 1).mulScalar (1 / 1)

/-- The translation `main` builds for the argument "0 0 0". -/
def zeroTranslation : Translation3D := ⟨0, 0, 0⟩

/-! ## CSV records and the per-record transform -/

/-- One field of a `csv::StringRecord`.  `raw` holds field text exactly as
read from the archive; `val` holds a field written by `f32::to_string` of
a computed value.  Rust's float `Display`/`FromStr` pair round-trips
exactly, so the model keeps the computed value itself in a `val` field. -/
inductive CsvField where
  | raw : String → CsvField
  | val : Q → CsvField
deriving DecidableEq

abbrev StringRecord := List CsvField

/-- Failure taxonomy of the run: IO errors (archive open/read), parse
errors (malformed fields, non-matching entry names, out-of-range field
indexes) and arithmetic errors (the `usize` underflow of `id - 1`).
Every `expect`/`unwrap`/`panic` of the source aborts the process; here it
becomes an `Except.error` carried to the top. -/
inductive RunError where
  | io : String → RunError
  | parse : String → RunError
  | arith : String → RunError
deriving DecidableEq

def digitsVal (ds : List Char) : Nat := ds.foldl (fun a c => a * 10 + (c.toNat - 48)) 0

/-- Models `str::parse::<f32>` on plain decimal literals
`[+-]? digits [. digits]?` (the only forms the program's data uses;
exponent, inf and nan forms are not modelled), keeping the exact rational
value of the literal. -/
def parseF32 (s : String) : Option Q :=
  let sc : Bool × List Char :=
    match s.data with
    | '-' :: r => (true, r)
    | '+' :: r => (false, r)
    | cs => (false, cs)
  let neg := sc.1
  let cs := sc.2
  let ip := cs.takeWhile Char.isDigit
  let rest1 := cs.dropWhile Char.isDigit
  let mk : Q → Option Q := fun q => some (if neg then -q else q)
  match rest1 with
  | [] => if ip.isEmpty then none else mk (digitsVal ip : Nat)
  | '.' :: fr =>
    let fp := fr.takeWhile Char.isDigit
    let rest2 := fr.dropWhile Char.isDigit
    if rest2.isEmpty then
      if ip.isEmpty && fp.isEmpty then none
      else mk ((digitsVal ip : Nat) + ((digitsVal fp : Nat) : Q) / ((10 ^ fp.length : Nat) : Q))
    else none
  | _ => none

def parseField : CsvField → Option Q
  | .raw s => parseF32 s
  | .val q => some q

/-- Indexing a `StringRecord` (`record[i]`); out of range panics in Rust. -/
def getField (record : StringRecord) (i : Nat) : Except RunError CsvField :=
  match record.get? i with
  | some f => .ok f
  | none => .error (.parse "field index out of range")

/-- `record[i].parse::<f32>().unwrap()`. -/
def getParse (record : StringRecord) (i : Nat) : Except RunError Q :=
  match getField record i with
  | .ok f =>
    match parseField f with
    | some q => .ok q
    | none => .error (.parse "invalid float literal")
  | .error e => .error e

/-- Models the per-record map of `csv2vviz` (main.rs lines 123-149): build
the canonical point from columns 1, 3, 2 (in that evaluation order), apply
the optional rotation and then the optional translation, and re-emit the
record as `[col0, x, z, y, col4, col5, col6]`. -/
def transformRecord (rotation : Option Rotation3D) (translation : Option Translation3D)
    (record : StringRecord) : Except RunError StringRecord := do
  let x ← getParse record 1
  let y ← getParse record 3
  let z ← getParse record 2
  let p0 : Point3D := ⟨x, y, z⟩
  let p1 :=
    match rotation with
    | some r => r.transformPoint3d p0
    | none => p0
  let p2 :=
    match translation with
    | some t => t.transformPoint3d p1
    | none => p1
  let f0 ← getField record 0
  let f4 ← getField record 4
  let f5 ← getField record 5
  let f6 ← getField record 6
  pure [f0, CsvField.val p2.x, CsvField.val p2.z, CsvField.val p2.y, f4, f5, f6]

/-- The optional rotation step on its own (`if let Some(rotation) = ...`). -/
def applyRotationOpt : Option Rotation3D → Point3D → Point3D
  | none, p => p
  | some r, p => r.transformPoint3d p

/-- The optional translation step on its own (`if let Some(translation) = ...`). -/
def applyTranslationOpt : Option Translation3D → Point3D → Point3D
  | none, p => p
  | some t, p => t.transformPoint3d p

/-! ## Traversal deltas -/

/-- `AgentTraversal` of main.rs lines 10-17: `dt` is optional in the
document schema (`skip_serializing_if`), though every computed delta sets it. -/
structure AgentTraversal where
  dx : Q
  dy : Q
  dz : Q
  dt : Option Q
deriving DecidableEq

abbrev AgentTraversals := List AgentTraversal

/-- One step of `AgentTraversals::from` (main.rs lines 33-42), for a
`(cur, prev)` pair, with the fields parsed in the source's evaluation
order: `dt` from column 0, `dx` from column 1, `dy` from column 3,
`dz` from column 2. -/
def traversalOfPair (cur prev : StringRecord) : Except RunError AgentTraversal := do
  let tc ← getParse cur 0
  let tp ← getParse prev 0
  let xc ← getParse cur 1
  let xp ← getParse prev 1
  let yc ← getParse cur 3
  let yp ← getParse prev 3
  let zc ← getParse cur 2
  let zp ← getParse prev 2
  pure { dx := xc - xp, dy := yc - yp, dz := zc - zp, dt := some ((tc - tp) / 1000) }

/-- `iter().map(..).collect()` over fallible element processing; the first
panic aborts. -/
def collectMap {α β : Type} (f : α → Except RunError β) : List α → Except RunError (List β)
  | [] => .ok []
  | a :: rest => do
    let b ← f a
    let bs ← collectMap f rest
    pure (b :: bs)

/-- `AgentTraversals::from(records)`: `records.iter().skip(1).zip(records.iter())`
pairs each record with its predecessor. -/
def agentTraversalsFrom (records : List StringRecord) : Except RunError AgentTraversals :=
  collectMap (fun pr => traversalOfPair pr.1 pr.2) ((records.drop 1).zip records)

example : parseF32 "1000" = some 1000 := by decide
example : parseF32 "-1.5" = some (0 - 1 - (1 : Q) / 2) := by decide
example : parseF32 "" = none := by decide
example : parseF32 "." = none := by decide
example :
    traversalOfPair
      [.raw "1000", .raw "4", .raw "6", .raw "5", .raw "", .raw "", .raw ""]
      [.raw "0", .raw "1", .raw "2", .raw "3", .raw "", .raw "", .raw ""] =
      .ok { dx := 3, dy := 2, dz := 4, dt := some 1 } := by decide

/-! ## Agent identity and the Show document -/

/-- Models the capture of `^Drone (\d+)` on an entry name: the name must
start with the literal "Drone ", immediately followed by at least one
digit; the capture is the maximal digit run. -/
def droneDigits (cs : List Char) : Option (List Char) :=
  match cs with
  | 'D' :: 'r' :: 'o' :: 'n' :: 'e' :: ' ' :: rest =>
    let digits := rest.takeWhile Char.isDigit
    if digits.isEmpty then none else some digits
  | _ => none

/-- `name_re.captures(name).unwrap().get(1).unwrap().as_str().parse::<usize>().unwrap()`
(main.rs lines 151-156). -/
def extractDroneNum (name : String) : Option Nat :=
  (droneDigits name.data).map digitsVal

/-- The `drone_id - 1` of main.rs line 160: `usize` subtraction, defined
only when the drone number is at least 1; the underflow branch is the
overflow-checked error. -/
def checkedSub1 (n : Nat) : Except RunError Nat :=
  if n = 0 then .error (.arith "attempt to subtract with overflow")
  else .ok (n - 1)

structure ColorAction where
  r : Nat
  g : Nat
  b : Nat
  frames : Option Nat
deriving DecidableEq

structure Payload where
  id : Nat
  payloadType : String
  actions : List ColorAction
deriving DecidableEq

structure AgentDescription where
  homeX : Q
  homeY : Q
  homeZ : Q
  traversals : AgentTraversals
deriving DecidableEq

structure Performance where
  id : Nat
  description : AgentDescription
  payload : List Payload
deriving DecidableEq

structure Show where
  version : String
  defaultPositionRate : Q
  defaultColorRate : Q
  performances : List Performance
deriving DecidableEq

/-! ## The archive loop -/

/-- One archive entry: a name and the data rows its CSV content yields
(the `csv` crate's reader treats the first line as a header, so `rows`
are the records after the header). -/
structure ZipEntry where
  name : String
  rows : List StringRecord
deriving DecidableEq

/-- A failure of the zip crate (opening/reading the archive, or
`by_index` on one entry). -/
inductive ZipError where
  | io : String → ZipError
deriving DecidableEq

def slotOk : Except ZipError ZipEntry → Bool
  | .ok _ => true
  | .error _ => false

/-- The entries the `while let Ok(..) = archive.by_index(..)` loop visits:
the archive's slots up to (excluding) the first one `by_index` fails on;
a failing slot silently ends the loop. -/
def entriesUpToErr : List (Except ZipError ZipEntry) → List ZipEntry
  | [] => []
  | .ok e :: rest => e :: entriesUpToErr rest
  | .error _ :: _ => []

/-- The `.unwrap()` on the regex capture: no match panics. -/
def extractDroneNumE (name : String) : Except RunError Nat :=
  match extractDroneNum name with
  | some n => .ok n
  | none => .error (.parse "entry name does not match the Drone pattern")

/-- `records[0]`: indexing an empty record list panics. -/
def firstRecord (records : List StringRecord) : Except RunError StringRecord :=
  match records.get? 0 with
  | some rec0 => .ok rec0
  | none => .error (.parse "record index out of bounds")

/-- Processing of one visited entry (main.rs lines 120-169): transform all
records, extract the drone number from the name, renumber to a 0-indexed
id, then build the `Performance` with the home position from the first
transformed record's columns 1, 3, 2 and the traversal list. -/
def processEntry (rotation : Option Rotation3D) (translation : Option Translation3D)
    (e : ZipEntry) : Except RunError Performance := do
  let records ← collectMap (transformRecord rotation translation) e.rows
  let droneNum ← extractDroneNumE e.name
  let id ← checkedSub1 droneNum
  let first ← firstRecord records
  let hx ← getParse first 1
  let hy ← getParse first 3
  let hz ← getParse first 2
  let travs ← agentTraversalsFrom records
  pure { id := id,
         description := { homeX := hx, homeY := hy, homeZ := hz, traversals := travs },
         payload := [] }

/-- Stable insertion of a performance after all entries with id at most its
own (one step of a stable sort by id). -/
def insertPerf (p : Performance) : List Performance → List Performance
  | [] => [p]
  | q :: rest => if q.id ≤ p.id then q :: insertPerf p rest else p :: q :: rest

/-- Models `show.performances.sort_by_cached_key(|p| p.id)`: a stable sort
ascending by id (all stable sorts compute the same list, so this insertion
sort equals the source's stable sort). -/
def sortPerformances (ps : List Performance) : List Performance :=
  ps.foldl (fun acc p => insertPerf p acc) []

/-- The body of the archive loop: process each visited entry, push its
performance and re-sort by id after every push. -/
def processEntries (rotation : Option Rotation3D) (translation : Option Translation3D) :
    List ZipEntry → List Performance → Except RunError (List Performance)
  | [], acc => .ok acc
  | e :: rest, acc => do
    let p ← processEntry rotation translation e
    processEntries rotation translation rest (sortPerformances (acc ++ [p]))

/-- The `File::open(..).expect(..)` / `ZipArchive::new(..).expect(..)` steps:
an outer error aborts the run before any entry is processed. -/
def openArchive (archive : Except ZipError (List (Except ZipError ZipEntry))) :
    Except RunError (List (Except ZipError ZipEntry)) :=
  match archive with
  | .ok s => .ok s
  | .error (.io msg) => .error (.io msg)

/-- The whole `csv2vviz` run (main.rs lines 95-181).  The input models the
archive: an outer error is a failure of `File::open` or `ZipArchive::new`
(an `expect`, so the run aborts before any output); otherwise the slot
list gives, per index, what `by_index` returns.  An `Except.ok` result is
the one `Show` document serialized and written at the end of the run; an
`Except.error` result is a panic, with no output file written. -/
def csv2vviz (archive : Except ZipError (List (Except ZipError ZipEntry)))
    (rotation : Option Rotation3D) (translation : Option Translation3D) :
    Except RunError Show := do
  let slots ← openArchive archive
  let perfs ← processEntries rotation translation (entriesUpToErr slots) []
  pure { version := "1.0", defaultPositionRate := 4, defaultColorRate := 4,
         performances := perfs }

/-! ## Concrete data used by the examples and witnesses -/

/-- First data row of the spec's worked example: `(0,1,2,3,,,)`. -/
def exRow0 : StringRecord :=
  [.raw "0", .raw "1", .raw "2", .raw "3", .raw "", .raw "", .raw ""]

/-- Second data row of the spec's worked example: `(1000,4,6,5,,,)`. -/
def exRow1 : StringRecord :=
  [.raw "1000", .raw "4", .raw "6", .raw "5", .raw "", .raw "", .raw ""]

/-- The spec example's entry: two data rows under a well-formed name. -/
def exampleEntry : ZipEntry := ⟨"Drone 1", [exRow0, exRow1]⟩

example : extractDroneNum "Drone 12" = some 12 := by decide
example : extractDroneNum "Sensor 1" = none := by decide
example : extractDroneNum "Drone x" = none := by decide
example :
    processEntry none none exampleEntry =
      .ok { id := 0,
            description := { homeX := 1, homeY := 3, homeZ := 2,
                             traversals := [{ dx := 3, dy := 2, dz := 4, dt := some 1 }] },
            payload := [] } := by decide

/-! ## Generic inversion helpers -/

theorem except_bind_ok {ε α β : Type} {x : Except ε α} {f : α → Except ε β} {b : β} :
    x >>= f = .ok b ↔ ∃ a, x = .ok a ∧ f a = .ok b := by
  cases x <;> simp [Bind.bind, Except.bind]

theorem except_pure_ok {ε α : Type} {a b : α} :
    (pure a : Except ε α) = .ok b ↔ a = b := by
  simp [pure, Except.pure]

theorem collectMap_ok_length {α β : Type} {f : α → Except RunError β} :
    ∀ {l : List α} {ys : List β}, collectMap f l = .ok ys → ys.length = l.length := by
  intro l
  induction l with
  | nil =>
    intro ys h
    simp only [collectMap] at h
    cases h
    rfl
  | cons a rest ih =>
    intro ys h
    simp only [collectMap] at h
    rw [except_bind_ok] at h
    obtain ⟨b, hb, h⟩ := h
    rw [except_bind_ok] at h
    obtain ⟨bs, hbs, h⟩ := h
    rw [except_pure_ok] at h
    subst h
    simp [ih hbs]

theorem collectMap_ok_get {α β : Type} {f : α → Except RunError β} :
    ∀ {l : List α} {ys : List β}, collectMap f l = .ok ys →
      ∀ (i : Nat) (b : β), ys.get? i = some b →
        ∃ a, l.get? i = some a ∧ f a = .ok b := by
  intro l
  induction l with
  | nil =>
    intro ys h i b hb
    simp only [collectMap] at h
    cases h
    simp at hb
  | cons a rest ih =>
    intro ys h i b hb
    simp only [collectMap] at h
    rw [except_bind_ok] at h
    obtain ⟨b0, hb0, h⟩ := h
    rw [except_bind_ok] at h
    obtain ⟨bs, hbs, h⟩ := h
    rw [except_pure_ok] at h
    subst h
    match i with
    | 0 =>
      simp only [List.get?_cons_zero, Option.some.injEq] at hb
      subst hb
      exact ⟨a, rfl, hb0⟩
    | i + 1 =>
      simp only [List.get?_cons_succ] at hb ⊢
      exact ih hbs i b hb

theorem getField_ok_iff {record : StringRecord} {i : Nat} {f : CsvField} :
    getField record i = .ok f ↔ record.get? i = some f := by
  unfold getField
  cases record.get? i <;> simp

theorem zip_get?_some {α β : Type} :
    ∀ (l : List α) (l' : List β) (i : Nat) (p : α × β),
      (l.zip l').get? i = some p → l.get? i = some p.1 ∧ l'.get? i = some p.2 := by
  intro l
  induction l with
  | nil => intro l' i p h; simp at h
  | cons a rest ih =>
    intro l' i p h
    cases l' with
    | nil => simp at h
    | cons b rest' =>
      match i with
      | 0 =>
        simp only [List.zip_cons_cons, List.get?_cons_zero, Option.some.injEq] at h ⊢
        subst h
        exact ⟨rfl, rfl⟩
      | i + 1 =>
        simp only [List.zip_cons_cons, List.get?_cons_succ] at h ⊢
        exact ih rest' i p h

theorem drop_one_get? {α : Type} (l : List α) (i : Nat) :
    (l.drop 1).get? i = l.get? (i + 1) := by
  cases l <;> simp

theorem agentTraversalsFrom_ok_length {records : List StringRecord} {ts : AgentTraversals}
    (h : agentTraversalsFrom records = .ok ts) : ts.length = records.length - 1 := by
  unfold agentTraversalsFrom at h
  have hlen := collectMap_ok_length h
  rw [hlen, List.length_zip, List.length_drop]
  omega

/-! ## Inversion of the per-entry processing -/

theorem transformRecord_ok_inv {rotation : Option Rotation3D}
    {translation : Option Translation3D} {record rec' : StringRecord}
    (h : transformRecord rotation translation record = .ok rec') :
    ∃ x y z f0 f4 f5 f6,
      getParse record 1 = .ok x ∧ getParse record 3 = .ok y ∧ getParse record 2 = .ok z ∧
      getField record 0 = .ok f0 ∧ getField record 4 = .ok f4 ∧
      getField record 5 = .ok f5 ∧ getField record 6 = .ok f6 ∧
      rec' = [f0,
        CsvField.val (applyTranslationOpt translation (applyRotationOpt rotation ⟨x, y, z⟩)).x,
        CsvField.val (applyTranslationOpt translation (applyRotationOpt rotation ⟨x, y, z⟩)).z,
        CsvField.val (applyTranslationOpt translation (applyRotationOpt rotation ⟨x, y, z⟩)).y,
        f4, f5, f6] := by
  unfold transformRecord at h
  rw [except_bind_ok] at h
  obtain ⟨x, hx, h⟩ := h
  rw [except_bind_ok] at h
  obtain ⟨y, hy, h⟩ := h
  rw [except_bind_ok] at h
  obtain ⟨z, hz, h⟩ := h
  rw [except_bind_ok] at h
  obtain ⟨f0, h0, h⟩ := h
  rw [except_bind_ok] at h
  obtain ⟨f4, h4, h⟩ := h
  rw [except_bind_ok] at h
  obtain ⟨f5, h5, h⟩ := h
  rw [except_bind_ok] at h
  obtain ⟨f6, h6, h⟩ := h
  rw [except_pure_ok] at h
  refine ⟨x, y, z, f0, f4, f5, f6, hx, hy, hz, h0, h4, h5, h6, ?_⟩
  subst h
  cases rotation <;> cases translation <;> rfl

theorem extractDroneNumE_ok {name : String} {n : Nat} :
    extractDroneNumE name = .ok n ↔ extractDroneNum name = some n := by
  unfold extractDroneNumE
  cases extractDroneNum name <;> simp

theorem firstRecord_ok {records : List StringRecord} {rec0 : StringRecord} :
    firstRecord records = .ok rec0 ↔ records.get? 0 = some rec0 := by
  unfold firstRecord
  cases records.get? 0 <;> simp

theorem processEntry_ok_inv {rotation : Option Rotation3D}
    {translation : Option Translation3D} {e : ZipEntry} {p : Performance}
    (h : processEntry rotation translation e = .ok p) :
    ∃ records droneNum first,
      collectMap (transformRecord rotation translation) e.rows = .ok records ∧
      extractDroneNum e.name = some droneNum ∧
      checkedSub1 droneNum = .ok p.id ∧
      records.get? 0 = some first ∧
      getParse first 1 = .ok p.description.homeX ∧
      getParse first 3 = .ok p.description.homeY ∧
      getParse first 2 = .ok p.description.homeZ ∧
      agentTraversalsFrom records = .ok p.description.traversals ∧
      p.payload = [] := by
  unfold processEntry at h
  rw [except_bind_ok] at h
  obtain ⟨records, hrec, h⟩ := h
  rw [except_bind_ok] at h
  obtain ⟨droneNum, hdn, h⟩ := h
  rw [except_bind_ok] at h
  obtain ⟨id, hid, h⟩ := h
  rw [except_bind_ok] at h
  obtain ⟨first, hfirst, h⟩ := h
  rw [except_bind_ok] at h
  obtain ⟨hx, hhx, h⟩ := h
  rw [except_bind_ok] at h
  obtain ⟨hy, hhy, h⟩ := h
  rw [except_bind_ok] at h
  obtain ⟨hz, hhz, h⟩ := h
  rw [except_bind_ok] at h
  obtain ⟨travs, htravs, h⟩ := h
  rw [except_pure_ok] at h
  subst h
  rw [extractDroneNumE_ok] at hdn
  rw [firstRecord_ok] at hfirst
  exact ⟨records, droneNum, first, hrec, hdn, hid, hfirst, hhx, hhy, hhz, htravs, rfl⟩

/-! ## Sortedness and loop lemmas -/

theorem openArchive_ok {archive : Except ZipError (List (Except ZipError ZipEntry))}
    {slots : List (Except ZipError ZipEntry)} :
    openArchive archive = .ok slots ↔ archive = .ok slots := by
  unfold openArchive
  cases archive with
  | ok s => simp
  | error z => cases z; simp

theorem mem_insertPerf {p x : Performance} :
    ∀ {l : List Performance}, x ∈ insertPerf p l → x = p ∨ x ∈ l := by
  intro l
  induction l with
  | nil => intro h; simp [insertPerf] at h; exact Or.inl h
  | cons q rest ih =>
    intro h
    unfold insertPerf at h
    by_cases hc : q.id ≤ p.id
    · rw [if_pos hc] at h
      rcases List.mem_cons.mp h with h1 | h2
      · exact Or.inr (List.mem_cons.mpr (Or.inl h1))
      · rcases ih h2 with h3 | h4
        · exact Or.inl h3
        · exact Or.inr (List.mem_cons.mpr (Or.inr h4))
    · rw [if_neg hc] at h
      rcases List.mem_cons.mp h with h1 | h2
      · exact Or.inl h1
      · exact Or.inr h2

theorem pairwise_insertPerf {p : Performance} :
    ∀ {l : List Performance}, l.Pairwise (fun a b => a.id ≤ b.id) →
      (insertPerf p l).Pairwise (fun a b => a.id ≤ b.id) := by
  intro l
  induction l with
  | nil => intro _; simp [insertPerf]
  | cons q rest ih =>
    intro h
    rw [List.pairwise_cons] at h
    obtain ⟨hq, hrest⟩ := h
    unfold insertPerf
    by_cases hc : q.id ≤ p.id
    · rw [if_pos hc]
      rw [List.pairwise_cons]
      refine ⟨?_, ih hrest⟩
      intro x hx
      rcases mem_insertPerf hx with h1 | h2
      · rw [h1]; exact hc
      · exact hq x h2
    · rw [if_neg hc]
      rw [List.pairwise_cons]
      refine ⟨?_, List.pairwise_cons.mpr ⟨hq, hrest⟩⟩
      intro x hx
      rcases List.mem_cons.mp hx with h1 | h2
      · rw [h1]; omega
      · have := hq x h2
        omega

theorem pairwise_foldl_insert :
    ∀ (ps acc : List Performance), acc.Pairwise (fun a b => a.id ≤ b.id) →
      (ps.foldl (fun acc p => insertPerf p acc) acc).Pairwise (fun a b => a.id ≤ b.id) := by
  intro ps
  induction ps with
  | nil => intro acc h; exact h
  | cons p rest ih =>
    intro acc h
    exact ih _ (pairwise_insertPerf h)

theorem pairwise_sortPerformances (ps : List Performance) :
    (sortPerformances ps).Pairwise (fun a b => a.id ≤ b.id) :=
  pairwise_foldl_insert ps [] List.Pairwise.nil

theorem processEntries_ok_pairwise {rotation : Option Rotation3D}
    {translation : Option Translation3D} :
    ∀ (entries : List ZipEntry) (acc out : List Performance),
      acc.Pairwise (fun a b => a.id ≤ b.id) →
      processEntries rotation translation entries acc = .ok out →
      out.Pairwise (fun a b => a.id ≤ b.id) := by
  intro entries
  induction entries with
  | nil =>
    intro acc out hacc h
    simp only [processEntries] at h
    cases h
    exact hacc
  | cons e rest ih =>
    intro acc out hacc h
    simp only [processEntries] at h
    rw [except_bind_ok] at h
    obtain ⟨p, _, h⟩ := h
    exact ih _ _ (pairwise_sortPerformances _) h

theorem processEntries_ok_all {rotation : Option Rotation3D}
    {translation : Option Translation3D} :
    ∀ (entries : List ZipEntry) (acc out : List Performance),
      processEntries rotation translation entries acc = .ok out →
      ∀ e ∈ entries, ∃ p, processEntry rotation translation e = .ok p := by
  intro entries
  induction entries with
  | nil => intro acc out _ e he; cases he
  | cons a rest ih =>
    intro acc out h e he
    simp only [processEntries] at h
    rw [except_bind_ok] at h
    obtain ⟨p, hp, h⟩ := h
    rcases List.mem_cons.mp he with h1 | h2
    · exact ⟨p, h1 ▸ hp⟩
    · exact ih _ _ h e h2

theorem mem_entriesUpToErr {e : ZipEntry} :
    ∀ {slots : List (Except ZipError ZipEntry)},
      (∀ s ∈ slots, slotOk s = true) → Except.ok e ∈ slots →
      e ∈ entriesUpToErr slots := by
  intro slots
  induction slots with
  | nil => intro _ hmem; cases hmem
  | cons s rest ih =>
    intro hall hmem
    cases s with
    | ok e' =>
      simp only [entriesUpToErr]
      rcases List.mem_cons.mp hmem with h1 | h2
      · exact List.mem_cons.mpr (Or.inl (by cases h1; rfl))
      · exact List.mem_cons.mpr
          (Or.inr (ih (fun s hs => hall s (List.mem_cons_of_mem _ hs)) h2))
    | error z =>
      have := hall _ (List.mem_cons_self _ _)
      simp [slotOk] at this

theorem entriesUpToErr_append_err (z : ZipError) (rest : List (Except ZipError ZipEntry)) :
    ∀ (good : List (Except ZipError ZipEntry)), (∀ s ∈ good, slotOk s = true) →
      entriesUpToErr (good ++ .error z :: rest) = entriesUpToErr good := by
  intro good
  induction good with
  | nil => intro _; rfl
  | cons s g ih =>
    intro hall
    cases s with
    | ok e =>
      have hg := ih (fun s hs => hall s (List.mem_cons_of_mem _ hs))
      simp only [List.cons_append, entriesUpToErr]
      exact congrArg (fun l => e :: l) hg
    | error z' =>
      have := hall _ (List.mem_cons_self _ _)
      simp [slotOk] at this

theorem processEntry_err_of_bad_name {rotation : Option Rotation3D}
    {translation : Option Translation3D} {e : ZipEntry}
    (hname : extractDroneNum e.name = none) :
    ∀ p, processEntry rotation translation e ≠ .ok p := by
  intro p h
  obtain ⟨records, droneNum, first, _, hdn, _⟩ := processEntry_ok_inv h
  rw [hname] at hdn
  exact Option.noConfusion hdn

/-! ## More concrete data for counterexamples and witnesses -/

/-- The performance the program computes for `exampleEntry` with no transform. -/
def examplePerf : Performance :=
  { id := 0,
    description := { homeX := 1, homeY := 3, homeZ := 2,
                     traversals := [{ dx := 3, dy := 2, dz := 4, dt := some 1 }] },
    payload := [] }

/-- The single traversal the program computes for the spec example's row pair. -/
def exTraversal : AgentTraversal := { dx := 3, dy := 2, dz := 4, dt := some 1 }

/-- What `exRow0` becomes after the no-op transform re-emits it. -/
def exRow0Transformed : StringRecord :=
  [.raw "0", .val 1, .val 2, .val 3, .raw "", .raw "", .raw ""]

def sensorEntry : ZipEntry := ⟨"Sensor 1", [exRow0]⟩

def drone1Entry : ZipEntry := ⟨"Drone 1", [exRow0]⟩

def drone3Entry : ZipEntry := ⟨"Drone 3", [exRow0]⟩

/-- The document produced from the two one-row entries "Drone 3" / "Drone 1". -/
def sortedShowTwoDrones : Show :=
  { version := "1.0", defaultPositionRate := 4, defaultColorRate := 4,
    performances :=
      [{ id := 0,
         description := { homeX := 1, homeY := 3, homeZ := 2, traversals := [] },
         payload := [] },
       { id := 2,
         description := { homeX := 1, homeY := 3, homeZ := 2, traversals := [] },
         payload := [] }] }

/-- `csv2vviz` on a readable archive, unfolded past the open step. -/
theorem csv2vviz_ok_archive (slots : List (Except ZipError ZipEntry))
    (rotation : Option Rotation3D) (translation : Option Translation3D) :
    csv2vviz (.ok slots) rotation translation =
      processEntries rotation translation (entriesUpToErr slots) [] >>= fun perfs =>
        pure { version := "1.0", defaultPositionRate := 4, defaultColorRate := 4,
               performances := perfs } := rfl

/-! ## The claims -/

/-- C1, counterexample: the claim says that on any archive read failure —
including a failure to read an individual entry — no output document is
written.  In the code, a failing `by_index` merely ends the
`while let Ok(..)` loop: on an archive whose very first entry fails to
read, the run still succeeds and writes a document (here with an empty
`performances` list). -/
theorem C1_counterexample :
    csv2vviz (.ok [.error (ZipError.io "entry read failure")]) none none =
      .ok { version := "1.0", defaultPositionRate := 4, defaultColorRate := 4,
            performances := [] } := by decide

/-- C1, amended: if the archive itself cannot be opened or read, the run
fails with an IO error before writing anything; but a `by_index` failure
on an individual entry only terminates the loop — the entries before the
failing slot are processed and the document built from them is still
written, exactly as if the archive had ended there. -/
theorem C1_amended_failure_semantics :
    (∀ (msg : String) (rotation : Option Rotation3D) (translation : Option Translation3D),
        csv2vviz (.error (.io msg)) rotation translation = .error (.io msg)) ∧
    (∀ (good : List (Except ZipError ZipEntry)) (z : ZipError)
        (rest : List (Except ZipError ZipEntry))
        (rotation : Option Rotation3D) (translation : Option Translation3D),
        (∀ s ∈ good, slotOk s = true) →
        csv2vviz (.ok (good ++ .error z :: rest)) rotation translation =
          csv2vviz (.ok good) rotation translation) := by
  constructor
  · intro msg rotation translation
    rfl
  · intro good z rest rotation translation hall
    rw [csv2vviz_ok_archive, csv2vviz_ok_archive, entriesUpToErr_append_err z rest good hall]

/-- C1, witness for the amended statement: a concrete archive whose second
slot fails to read produces exactly the document of the one-slot archive. -/
theorem C1_witness :
    csv2vviz (.ok ([.ok drone1Entry] ++ .error (ZipError.io "boom") :: [.ok drone3Entry]))
        none none =
      csv2vviz (.ok [.ok drone1Entry]) none none :=
  C1_amended_failure_semantics.2 [.ok drone1Entry] (ZipError.io "boom") [.ok drone3Entry]
    none none (by decide)

/-- C2, counterexample: for the spec example's rows `(0,1,2,3,,,)` and
`(1000,4,6,5,,,)` with no transform, the claim asserts home
`(homeX, homeY, homeZ) = (1, 2, 3)` and one traversal `(dx, dy, dz, dt) =
(3, 2, 3, 1)`.  The program computes `homeY` from column 3 and `homeZ`
from column 2, giving home `(1, 3, 2)`, and `dz = 6 - 2 = 4`. -/
theorem C2_counterexample :
    processEntry none none exampleEntry = .ok examplePerf ∧
    ¬ (examplePerf.description.homeX = 1 ∧ examplePerf.description.homeY = 2 ∧
       examplePerf.description.homeZ = 3 ∧
       examplePerf.description.traversals = [{ dx := 3, dy := 2, dz := 3, dt := some 1 }]) := by
  constructor
  · decide
  · decide

/-- C2, amended: the same input yields home position `homeX = 1, homeY = 3,
homeZ = 2` and exactly one traversal with `dx = 3, dy = 2, dz = 4,
dt = 1.0`. -/
theorem C2_amended_example_conversion :
    processEntry none none exampleEntry = .ok examplePerf ∧
    examplePerf.description.homeX = 1 ∧ examplePerf.description.homeY = 3 ∧
    examplePerf.description.homeZ = 2 ∧
    examplePerf.description.traversals = [{ dx := 3, dy := 2, dz := 4, dt := some 1 }] := by
  constructor
  · decide
  · decide

/-- C3: for every entry whose processing succeeds (N well-formed data rows,
N at least 1), the traversal list has exactly N - 1 entries, and the home
position is read from the first transformed record: `homeX` from column 1,
`homeY` from column 3, `homeZ` from column 2. -/
theorem C3_traversal_count_and_home :
    ∀ (rotation : Option Rotation3D) (translation : Option Translation3D)
      (e : ZipEntry) (p : Performance),
      processEntry rotation translation e = .ok p →
      p.description.traversals.length + 1 = e.rows.length ∧
      ∃ row0 rec0, e.rows.get? 0 = some row0 ∧
        transformRecord rotation translation row0 = .ok rec0 ∧
        getParse rec0 1 = .ok p.description.homeX ∧
        getParse rec0 3 = .ok p.description.homeY ∧
        getParse rec0 2 = .ok p.description.homeZ := by
  intro rotation translation e p h
  obtain ⟨records, droneNum, first, hrec, hdn, hid, hfirst, hhx, hhy, hhz, htravs, hpay⟩ :=
    processEntry_ok_inv h
  have hlen1 : records.length = e.rows.length := collectMap_ok_length hrec
  have hlen2 := agentTraversalsFrom_ok_length htravs
  have hpos : 0 < records.length := by
    cases records with
    | nil => simp at hfirst
    | cons _ _ => simp
  constructor
  · omega
  · obtain ⟨row0, hrow0, htr⟩ := collectMap_ok_get hrec 0 first hfirst
    exact ⟨row0, first, hrow0, htr, hhx, hhy, hhz⟩

/-- C3, witness: the spec example's two-row entry gives one traversal. -/
theorem C3_witness :
    examplePerf.description.traversals.length + 1 = exampleEntry.rows.length := by
  have h : processEntry none none exampleEntry = .ok examplePerf := by decide
  exact (C3_traversal_count_and_home none none exampleEntry examplePerf h).1

/-- C4: every produced traversal relates adjacent transformed records
`(prev, cur)` by `dx = cur[1] - prev[1]`, `dy = cur[3] - prev[3]`,
`dz = cur[2] - prev[2]` and `dt = (cur[0] - prev[0]) / 1000`, with `dt`
present (`some`) in every computed delta. -/
theorem C4_delta_formulas :
    ∀ (records : List StringRecord) (ts : AgentTraversals),
      agentTraversalsFrom records = .ok ts →
      ∀ (i : Nat) (t : AgentTraversal), ts.get? i = some t →
        ∃ prev cur tp tc xp xc yp yc zp zc,
          records.get? i = some prev ∧ records.get? (i + 1) = some cur ∧
          getParse cur 0 = .ok tc ∧ getParse prev 0 = .ok tp ∧
          getParse cur 1 = .ok xc ∧ getParse prev 1 = .ok xp ∧
          getParse cur 3 = .ok yc ∧ getParse prev 3 = .ok yp ∧
          getParse cur 2 = .ok zc ∧ getParse prev 2 = .ok zp ∧
          t.dx = xc - xp ∧ t.dy = yc - yp ∧ t.dz = zc - zp ∧
          t.dt = some ((tc - tp) / 1000) := by
  intro records ts h i t ht
  unfold agentTraversalsFrom at h
  obtain ⟨pr, hpr, hf⟩ := collectMap_ok_get h i t ht
  obtain ⟨hcur, hprev⟩ := zip_get?_some _ _ _ _ hpr
  rw [drop_one_get?] at hcur
  unfold traversalOfPair at hf
  rw [except_bind_ok] at hf
  obtain ⟨tc, htc, hf⟩ := hf
  rw [except_bind_ok] at hf
  obtain ⟨tp, htp, hf⟩ := hf
  rw [except_bind_ok] at hf
  obtain ⟨xc, hxc, hf⟩ := hf
  rw [except_bind_ok] at hf
  obtain ⟨xp, hxp, hf⟩ := hf
  rw [except_bind_ok] at hf
  obtain ⟨yc, hyc, hf⟩ := hf
  rw [except_bind_ok] at hf
  obtain ⟨yp, hyp, hf⟩ := hf
  rw [except_bind_ok] at hf
  obtain ⟨zc, hzc, hf⟩ := hf
  rw [except_bind_ok] at hf
  obtain ⟨zp, hzp, hf⟩ := hf
  rw [except_pure_ok] at hf
  subst hf
  exact ⟨pr.2, pr.1, tp, tc, xp, xc, yp, yc, zp, zc, hprev, hcur,
    htc, htp, hxc, hxp, hyc, hyp, hzc, hzp, rfl, rfl, rfl, rfl⟩

/-- C4, witness: the delta formulas instantiated on the spec example's
record pair. -/
theorem C4_witness :
    ∃ prev cur tp tc xp xc yp yc zp zc,
      [exRow0, exRow1].get? 0 = some prev ∧ [exRow0, exRow1].get? (0 + 1) = some cur ∧
      getParse cur 0 = .ok tc ∧ getParse prev 0 = .ok tp ∧
      getParse cur 1 = .ok xc ∧ getParse prev 1 = .ok xp ∧
      getParse cur 3 = .ok yc ∧ getParse prev 3 = .ok yp ∧
      getParse cur 2 = .ok zc ∧ getParse prev 2 = .ok zp ∧
      exTraversal.dx = xc - xp ∧ exTraversal.dy = yc - yp ∧ exTraversal.dz = zc - zp ∧
      exTraversal.dt = some ((tc - tp) / 1000) :=
  C4_delta_formulas [exRow0, exRow1] [exTraversal] (by decide) 0 exTraversal (by decide)

/-- C5: for every record the transform succeeds on, the re-emitted record
holds the canonical point built from columns 1, 3, 2, taken through the
optional rotation first and the optional translation second; an absent
component is the identity on the point. -/
theorem C5_rotation_before_translation :
    (∀ (rotation : Option Rotation3D) (translation : Option Translation3D)
        (record rec' : StringRecord),
        transformRecord rotation translation record = .ok rec' →
        ∃ x y z f0 f4 f5 f6,
          getParse record 1 = .ok x ∧ getParse record 3 = .ok y ∧ getParse record 2 = .ok z ∧
          rec' = [f0,
            CsvField.val (applyTranslationOpt translation (applyRotationOpt rotation ⟨x, y, z⟩)).x,
            CsvField.val (applyTranslationOpt translation (applyRotationOpt rotation ⟨x, y, z⟩)).z,
            CsvField.val (applyTranslationOpt translation (applyRotationOpt rotation ⟨x, y, z⟩)).y,
            f4, f5, f6]) ∧
    (∀ p : Point3D, applyRotationOpt none p = p) ∧
    (∀ p : Point3D, applyTranslationOpt none p = p) := by
  refine ⟨?_, fun p => rfl, fun p => rfl⟩
  intro rotation translation record rec' h
  obtain ⟨x, y, z, f0, f4, f5, f6, hx, hy, hz, _, _, _, _, hrec⟩ := transformRecord_ok_inv h
  exact ⟨x, y, z, f0, f4, f5, f6, hx, hy, hz, hrec⟩

/-- C5, witness: the composition shape instantiated on the example row
with no transform. -/
theorem C5_witness :
    ∃ x y z f0 f4 f5 f6,
      getParse exRow0 1 = .ok x ∧ getParse exRow0 3 = .ok y ∧ getParse exRow0 2 = .ok z ∧
      exRow0Transformed = [f0,
        CsvField.val (applyTranslationOpt none (applyRotationOpt none ⟨x, y, z⟩)).x,
        CsvField.val (applyTranslationOpt none (applyRotationOpt none ⟨x, y, z⟩)).z,
        CsvField.val (applyTranslationOpt none (applyRotationOpt none ⟨x, y, z⟩)).y,
        f4, f5, f6] :=
  C5_rotation_before_translation.1 none none exRow0 exRow0Transformed (by decide)

/-- C6: the transform changes only the three position columns: the
timestamp field (column 0) and the color fields (columns 4, 5, 6) of the
re-emitted record are the very fields of the input record. -/
theorem C6_transform_preserves_time_and_color :
    ∀ (rotation : Option Rotation3D) (translation : Option Translation3D)
      (record rec' : StringRecord),
      transformRecord rotation translation record = .ok rec' →
      rec'.get? 0 = record.get? 0 ∧ rec'.get? 4 = record.get? 4 ∧
      rec'.get? 5 = record.get? 5 ∧ rec'.get? 6 = record.get? 6 := by
  intro rotation translation record rec' h
  obtain ⟨x, y, z, f0, f4, f5, f6, _, _, _, h0, h4, h5, h6, hrec⟩ := transformRecord_ok_inv h
  rw [getField_ok_iff] at h0 h4 h5 h6
  subst hrec
  refine ⟨?_, ?_, ?_, ?_⟩ <;>
    simp only [List.get?_cons_zero, List.get?_cons_succ]
  · exact h0.symm
  · exact h4.symm
  · exact h5.symm
  · exact h6.symm

/-- C6, witness: field preservation on the example row with no transform. -/
theorem C6_witness :
    exRow0Transformed.get? 0 = exRow0.get? 0 ∧ exRow0Transformed.get? 4 = exRow0.get? 4 ∧
    exRow0Transformed.get? 5 = exRow0.get? 5 ∧ exRow0Transformed.get? 6 = exRow0.get? 6 :=
  C6_transform_preserves_time_and_color none none exRow0 exRow0Transformed (by decide)

/-- C7: whenever the run succeeds, the serialized `performances` array is
sorted ascending by `id`; in particular the archives holding the one-row
entries "Drone 3" and "Drone 1", in either order, both produce the id
sequence `[0, 2]`. -/
theorem C7_performances_sorted_by_id :
    (∀ (archive : Except ZipError (List (Except ZipError ZipEntry)))
        (rotation : Option Rotation3D) (translation : Option Translation3D) (s : Show),
        csv2vviz archive rotation translation = .ok s →
        s.performances.Pairwise (fun a b => a.id ≤ b.id)) ∧
    (csv2vviz (.ok [.ok drone3Entry, .ok drone1Entry]) none none).map
        (fun s => s.performances.map Performance.id) = .ok [0, 2] ∧
    (csv2vviz (.ok [.ok drone1Entry, .ok drone3Entry]) none none).map
        (fun s => s.performances.map Performance.id) = .ok [0, 2] := by
  refine ⟨?_, by decide, by decide⟩
  intro archive rotation translation s h
  unfold csv2vviz at h
  rw [except_bind_ok] at h
  obtain ⟨slots, _, h⟩ := h
  rw [except_bind_ok] at h
  obtain ⟨perfs, hperfs, h⟩ := h
  rw [except_pure_ok] at h
  subst h
  exact processEntries_ok_pairwise _ _ _ List.Pairwise.nil hperfs

/-- C7, witness: the sortedness fact applied to the "Drone 3" before
"Drone 1" archive. -/
theorem C7_witness :
    sortedShowTwoDrones.performances.Pairwise (fun a b => a.id ≤ b.id) :=
  C7_performances_sorted_by_id.1 (.ok [.ok drone3Entry, .ok drone1Entry]) none none
    sortedShowTwoDrones (by decide)

/-- C8: an entry whose name does not match `^Drone (\d+)` is a fatal parse
error: if such an entry is among the (readable) slots of the archive, the
run never returns a document; concretely, a single entry named "Sensor 1"
fails with the name-pattern parse error. -/
theorem C8_nonmatching_entry_name_fatal :
    (∀ (slots : List (Except ZipError ZipEntry))
        (rotation : Option Rotation3D) (translation : Option Translation3D) (e : ZipEntry),
        (∀ s ∈ slots, slotOk s = true) → Except.ok e ∈ slots →
        extractDroneNum e.name = none →
        ∀ s, csv2vviz (.ok slots) rotation translation ≠ .ok s) ∧
    csv2vviz (.ok [.ok sensorEntry]) none none =
      .error (.parse "entry name does not match the Drone pattern") := by
  refine ⟨?_, by decide⟩
  intro slots rotation translation e hall hmem hname s h
  unfold csv2vviz at h
  rw [except_bind_ok] at h
  obtain ⟨slots', hs, h⟩ := h
  rw [openArchive_ok] at hs
  cases hs
  rw [except_bind_ok] at h
  obtain ⟨perfs, hperfs, _⟩ := h
  obtain ⟨p, hp⟩ := processEntries_ok_all _ _ _ hperfs e (mem_entriesUpToErr hall hmem)
  exact processEntry_err_of_bad_name hname p hp

/-- C8, witness: the "Sensor 1" archive can produce no document. -/
theorem C8_witness :
    csv2vviz (.ok [.ok sensorEntry]) none none ≠
      .ok { version := "1.0", defaultPositionRate := 4, defaultColorRate := 4,
            performances := [] } :=
  C8_nonmatching_entry_name_fatal.1 [.ok sensorEntry] none none sensorEntry
    (by decide) (by decide) (by decide) _

/-- C9: the zero rotation (Euler angles 0, 0, 0, normalized) followed by
the zero translation is an exact identity on every input point. -/
theorem C9_zero_transform_identity :
    ∀ p : Point3D,
      applyTranslationOpt (some zeroTranslation)
        (applyRotationOpt (some zeroRotationNormalized) p) = p := by
  intro p
  obtain ⟨px, py, pz⟩ := p
  have hq : zeroRotationNormalized = ⟨0, 0, 0, 1⟩ := by decide
  simp [applyRotationOpt, applyTranslationOpt, hq, zeroTranslation,
    Rotation3D.transformPoint3d, Rotation3D.transformVector3d, Rotation3D.vectorPart,
    Vector3D.cross, Vector3D.add, Vector3D.smul, Translation3D.transformPoint3d,
    Q.zero_mul, Q.sub_zero, Q.add_zero]

/-- C10: the 0-indexed performance id is the drone number minus one over
`usize`, well-defined exactly when the number is at least 1; "Drone 0"
extracts the number 0, the checked subtraction reaches its error branch,
and processing an entry named "Drone 0" can never succeed. -/
theorem C10_drone_zero_underflow :
    extractDroneNum "Drone 0" = some 0 ∧
    checkedSub1 0 = .error (.arith "attempt to subtract with overflow") ∧
    (∀ n, 1 ≤ n → checkedSub1 n = .ok (n - 1)) ∧
    (∀ (rotation : Option Rotation3D) (translation : Option Translation3D)
        (rows : List StringRecord) (p : Performance),
        processEntry rotation translation ⟨"Drone 0", rows⟩ ≠ .ok p) := by
  refine ⟨by decide, by decide, ?_, ?_⟩
  · intro n hn
    unfold checkedSub1
    rw [if_neg (by omega)]
  · intro rotation translation rows p h
    obtain ⟨records, droneNum, first, _, hdn, hid, _⟩ := processEntry_ok_inv h
    have hz : extractDroneNum (ZipEntry.mk "Drone 0" rows).name = some 0 := by
      show extractDroneNum "Drone 0" = some 0
      decide
    rw [hz] at hdn
    cases hdn
    simp [checkedSub1] at hid

/-- C10, witness: the subtraction on a drone number at least 1. -/
theorem C10_witness : checkedSub1 5 = .ok 4 :=
  C10_drone_zero_underflow.2.2.1 5 (by decide)
